import Mathlib

/-!
Verification of the audit-log receiver (receiver/auditlogreceiver) against its
specification.  The Go source (reciever.go, circuitbreaker.go / the exported
CircuitBreaker variant, config.go) is shallowly embedded: OTLP log batches are
abstracted as lists of record bodies, wire encodings are tagged values so that
(un)marshalling is the exact partial inverse the Go codecs implement, the
pluggable KV store is a key-indexed map, and each HTTP handler is a pure
function from a receiver state ("world") and request data to a new state and
response.  Wall-clock instants and durations are natural-number nanosecond
ticks.  Storage backend operations are modelled as the storage contract
succeeding (Get never fails, Set/Delete/Batch apply); the only storage-level
failures kept are the ones the receiver itself produces and handles, namely an
undecodable keys-list blob.
-/

namespace AuditLog

/-- OTLP log batches (plog.Logs), abstracted as the list of their record
bodies; `LogRecordCount()` is the length. -/
abbrev PLogs := List String

/-- Wire bytes of a request or stored body, tagged by which codec produced
them, so that `UnmarshalProto`/`UnmarshalJSON` are exact partial inverses of
the corresponding marshal functions, as in the pdata codecs. -/
inductive BodyBytes where
  | protoBytes (logs : PLogs)
  | jsonBytes (logs : PLogs)
  | junk (bytes : List Nat)
deriving DecidableEq, Repr

/-- plogotlp ExportRequest.UnmarshalProto: succeeds exactly on protobuf bytes. -/
def unmarshalProto : BodyBytes → Option PLogs
  | BodyBytes.protoBytes l => some l
  | _ => none

/-- plogotlp ExportRequest.UnmarshalJSON: succeeds exactly on JSON bytes. -/
def unmarshalJSON : BodyBytes → Option PLogs
  | BodyBytes.jsonBytes l => some l
  | _ => none

/-- plogotlp ExportRequest.MarshalProto. -/
def marshalProto (l : PLogs) : BodyBytes := BodyBytes.protoBytes l

/-- AuditLogEntry from reciever.go (id, timestamp, body, content_type). -/
structure AuditLogEntry where
  id : String
  timestamp : Nat
  body : BodyBytes
  contentType : String
deriving DecidableEq, Repr

/-- A stored blob: entries are stored as the JSON encoding of AuditLogEntry,
the key index as the JSON encoding of a string list.  The two encodings are
disjoint and round-trip, which the tagged representation captures. -/
inductive Blob where
  | entryBlob (e : AuditLogEntry)
  | keysBlob (ks : List String)
deriving DecidableEq, Repr

/-- The reserved storage key `__keys_list__` (keysListKey in reciever.go). -/
def keysListKey : String := "__keys_list__"

/-- time.Minute in nanoseconds. -/
def timeMinute : Nat := 60000000000

/-- defaultProcessInterval (30 * time.Second) in nanoseconds. -/
def defaultProcessInterval : Nat := 30000000000

/-- The KV store contents: key to blob, absent keys give none (the storage
contract returns nil, not an error, on absent keys). -/
def Store := String → Option Blob

/-- storage.Client.Set on the modelled store. -/
def storeSet (s : Store) (k : String) (v : Blob) : Store :=
  fun k2 => if k2 = k then some v else s k2

/-- storage.Client.Delete on the modelled store. -/
def storeDelete (s : Store) (k : String) : Store :=
  fun k2 => if k2 = k then none else s k2

/-- One operation of a storage batch (storage.SetOperation / DeleteOperation). -/
inductive StorageOp where
  | setOp (key : String) (value : Blob)
  | delOp (key : String)
deriving DecidableEq, Repr

/-- Apply one batch operation to the store. -/
def applyOp (s : Store) : StorageOp → Store
  | StorageOp.setOp k v => storeSet s k v
  | StorageOp.delOp k => storeDelete s k

/-- storage.Client.Batch: apply the operations in order. -/
def applyOps (s : Store) (ops : List StorageOp) : Store := ops.foldl applyOp s

/-- getAllKeys: read the keys list; nil blob means the empty list, a blob that
is not a JSON string array is an unmarshal error. -/
def getAllKeysE (s : Store) : Except Unit (List String) :=
  match s keysListKey with
  | none => Except.ok []
  | some (Blob.keysBlob ks) => Except.ok ks
  | some (Blob.entryBlob _) => Except.error ()

/-- Whether getAllKeys succeeds on this store. -/
def indexOk (s : Store) : Bool :=
  match getAllKeysE s with
  | Except.ok _ => true
  | Except.error _ => false

/-- The current key index of a store ([] when absent or undecodable). -/
def idxKeys (s : Store) : List String :=
  match s keysListKey with
  | some (Blob.keysBlob ks) => ks
  | _ => []

/-- The batch built by storeLogAndUpdateKeysList: Set(key, logData), plus
Set(__keys_list__, newIndex) only when the key is not already indexed. -/
def storeLogOps (keys : List String) (key : String) (logData : Blob) : List StorageOp :=
  [StorageOp.setOp key logData] ++
    (if keys.contains key then []
     else [StorageOp.setOp keysListKey (Blob.keysBlob (keys ++ [key]))])

/-- storeLogAndUpdateKeysList: read the index, build the batch, apply it.
Returns the issued batch together with the resulting store. -/
def storeLogAndUpdateKeysList (s : Store) (key : String) (logData : Blob) :
    Except Unit (List StorageOp × Store) :=
  match getAllKeysE s with
  | Except.error e => Except.error e
  | Except.ok keys =>
    let ops := storeLogOps keys key logData
    Except.ok (ops, applyOps s ops)

/-- The batch built by deleteLogAndUpdateKeysList: Delete(key), plus either
Delete(__keys_list__) when the remaining index is empty or
Set(__keys_list__, newIndex) otherwise. -/
def deleteLogOps (keys : List String) (key : String) : List StorageOp :=
  let newKeys := keys.filter (fun k => k ≠ key)
  [StorageOp.delOp key] ++
    (if newKeys.isEmpty then [StorageOp.delOp keysListKey]
     else [StorageOp.setOp keysListKey (Blob.keysBlob newKeys)])

/-- deleteLogAndUpdateKeysList: read the index, build the batch, apply it. -/
def deleteLogAndUpdateKeysList (s : Store) (key : String) :
    Except Unit (List StorageOp × Store) :=
  match getAllKeysE s with
  | Except.error e => Except.error e
  | Except.ok keys =>
    let ops := deleteLogOps keys key
    Except.ok (ops, applyOps s ops)

/-- removeFromKeysList: ghost-key cleanup.  Errors reading the index are only
logged (store unchanged); an emptied index is deleted, otherwise rewritten. -/
def removeFromKeysList (s : Store) (key : String) : Store :=
  match getAllKeysE s with
  | Except.error _ => s
  | Except.ok keys =>
    let newKeys := keys.filter (fun k => k ≠ key)
    if newKeys.isEmpty then storeDelete s keysListKey
    else storeSet s keysListKey (Blob.keysBlob newKeys)

/-- Circuit breaker states (CircuitClosed / CircuitOpen / CircuitHalfOpen). -/
inductive CBState where
  | circuitClosed
  | circuitOpen
  | circuitHalfOpen
deriving DecidableEq, Repr

/-- CircuitBreakerConfig from config.go. -/
structure CircuitBreakerConfig where
  enabled : Bool
  circuitOpenThreshold : Nat
  circuitOpenDuration : Nat
deriving DecidableEq, Repr

/-- CircuitBreaker state: current state, consecutive failures, time of the
last failure. -/
structure CircuitBreaker where
  state : CBState
  consecutiveFails : Nat
  lastFailureTime : Nat
deriving DecidableEq, Repr

/-- NewCircuitBreaker: closed, zero failures, zero time. -/
def NewCircuitBreaker : CircuitBreaker :=
  { state := CBState.circuitClosed, consecutiveFails := 0, lastFailureTime := 0 }

/-- The effective open duration: time.Minute when the configured value is 0. -/
def effOpenDuration (cfg : CircuitBreakerConfig) : Nat :=
  if cfg.circuitOpenDuration = 0 then timeMinute else cfg.circuitOpenDuration

/-- The effective threshold: 5 when the configured value is 0. -/
def effThreshold (cfg : CircuitBreakerConfig) : Nat :=
  if cfg.circuitOpenThreshold = 0 then 5 else cfg.circuitOpenThreshold

/-- CheckAndUpdateState: an open breaker becomes half-open once the open
duration has elapsed since the last failure (time.Since under monotone
Nat ticks). -/
def CheckAndUpdateState (cfg : CircuitBreakerConfig) (now : Nat) (cb : CircuitBreaker) :
    CircuitBreaker :=
  if cb.state = CBState.circuitOpen then
    if effOpenDuration cfg ≤ now - cb.lastFailureTime then
      { cb with state := CBState.circuitHalfOpen }
    else cb
  else cb

/-- ShouldAttemptProcessing: true in the closed and half-open states. -/
def ShouldAttemptProcessing (cb : CircuitBreaker) : Bool :=
  decide (cb.state = CBState.circuitClosed) || decide (cb.state = CBState.circuitHalfOpen)

/-- CheckCircuitBreakerState: update the state, then report whether processing
may continue (the Go version also returns an error when it may not, and logs;
both are dropped here). -/
def CheckCircuitBreakerState (cfg : CircuitBreakerConfig) (now : Nat) (cb : CircuitBreaker) :
    Bool × CircuitBreaker :=
  let cb2 := CheckAndUpdateState cfg now cb
  (ShouldAttemptProcessing cb2, cb2)

/-- RecordSuccess: reset the counter and force closed. -/
def RecordSuccess (cb : CircuitBreaker) : CircuitBreaker :=
  { cb with consecutiveFails := 0, state := CBState.circuitClosed }

/-- RecordFailure: bump the counter, stamp the failure time; half-open goes to
open unconditionally, otherwise open once the counter reaches the threshold. -/
def RecordFailure (cfg : CircuitBreakerConfig) (now : Nat) (cb : CircuitBreaker) :
    CircuitBreaker :=
  let cb1 := { cb with consecutiveFails := cb.consecutiveFails + 1, lastFailureTime := now }
  if cb1.state = CBState.circuitHalfOpen then { cb1 with state := CBState.circuitOpen }
  else if effThreshold cfg ≤ cb1.consecutiveFails then { cb1 with state := CBState.circuitOpen }
  else cb1

/-- The receiver state visible to the embedded functions: the storage client
(none when Start has not resolved it), the breaker, the relevant config
fields, the downstream consumer (its verdict for the n-th call), the batches
it has observed so far, and the trace of storage batches issued. -/
structure World where
  store : Option Store
  cb : CircuitBreaker
  cbConfig : CircuitBreakerConfig
  processAgeThreshold : Nat
  consumeOk : Nat → Bool
  calls : List PLogs
  writes : List (List StorageOp)

/-- consumer.ConsumeLogs: the consumer observes the batch; its verdict is the
configured outcome for this call index. -/
def ConsumeLogs (w : World) (logs : PLogs) : Bool × World :=
  (w.consumeOk w.calls.length, { w with calls := w.calls ++ [logs] })

/-- Look an entry up in the world's store (none when storage is nil). -/
def storeLookup (w : World) (k : String) : Option Blob :=
  match w.store with
  | none => none
  | some s => s k

/-- The error cases the handlers surface through errorutil.HTTPError. -/
inductive HandlerError where
  | methodNotAllowed
  | unsupportedContentType
  | badPayload
  | consumerError
  | storageError
  | storageNotInitialized
deriving DecidableEq, Repr

/-- Modelled from the spec: the status mapping of errorutil.HTTPError (package
internal/coreinternal/errorutil, whose source is not part of this tree).  Per
the spec's external-interface section: 405 for a non-POST verb, 400 for an
unknown content type or malformed body, 500 for consumer or storage failure
after accepting the request. -/
def httpStatusOf : HandlerError → Nat
  | HandlerError.methodNotAllowed => 405
  | HandlerError.unsupportedContentType => 400
  | HandlerError.badPayload => 400
  | HandlerError.consumerError => 500
  | HandlerError.storageError => 500
  | HandlerError.storageNotInitialized => 500

/-- Response bodies the handlers write. -/
inductive RespBody where
  | emptyProtoResp
  | emptyJSONResp
  | errorText (e : HandlerError)
  | acceptedBody
deriving DecidableEq, Repr

/-- An HTTP response: status, Content-Type header if set, body. -/
structure HTTPResponse where
  status : Nat
  contentTypeHdr : Option String
  body : RespBody
deriving DecidableEq, Repr

/-- The response errorutil.HTTPError writes. -/
def errResponse (e : HandlerError) : HTTPResponse :=
  { status := httpStatusOf e, contentTypeHdr := none, body := RespBody.errorText e }

/-- The `if r.storage != nil` persistence step shared by the handlers: skip
when storage is nil, otherwise store through storeLogAndUpdateKeysList; a
storage failure (none) aborts the request with an error response. -/
def persistEntry (w : World) (key : String) (e : AuditLogEntry) : Option World :=
  match w.store with
  | none => some w
  | some s =>
    match storeLogAndUpdateKeysList s key (Blob.entryBlob e) with
    | Except.error _ => none
    | Except.ok (ops, s2) =>
      some { w with store := some s2, writes := w.writes ++ [ops] }

/-- The `if r.storage != nil { deleteLogAndUpdateKeysList }` step: delete
failures are only logged, so they leave the world unchanged. -/
def deleteQuietly (w : World) (key : String) : World :=
  match w.store with
  | none => w
  | some s =>
    match deleteLogAndUpdateKeysList s key with
    | Except.error _ => w
    | Except.ok (ops, s2) =>
      { w with store := some s2, writes := w.writes ++ [ops] }

/-- string(entry.Body): the single synthetic log record processAuditLog builds
for content types other than the OTLP ones. -/
def syntheticLogs (b : BodyBytes) : PLogs := [toString (repr b)]

/-- processAuditLog: gate on the breaker when enabled, decode the stored entry
by its content type, deliver to the consumer, and record the outcome in the
breaker when enabled.  Returns whether processing succeeded. -/
def processAuditLog (now : Nat) (w : World) (e : AuditLogEntry) : Bool × World :=
  let gate :=
    if w.cbConfig.enabled then CheckCircuitBreakerState w.cbConfig now w.cb
    else (true, w.cb)
  let w1 := { w with cb := gate.2 }
  if gate.1 = false then (false, w1)
  else
    let logsOpt :=
      if e.contentType = "application/x-protobuf" ∨ e.contentType = "application/vnd.google.protobuf"
      then unmarshalProto e.body
      else if e.contentType = "application/json" then unmarshalJSON e.body
      else some (syntheticLogs e.body)
    match logsOpt with
    | none => (false, w1)
    | some logs =>
      let r := ConsumeLogs w1 logs
      if r.1 then
        (true, { r.2 with cb := if r.2.cbConfig.enabled then RecordSuccess r.2.cb else r.2.cb })
      else
        (false, { r.2 with cb := if r.2.cbConfig.enabled then RecordFailure r.2.cbConfig now r.2.cb else r.2.cb })

/-- handleOTLPProtobuf: decode, answer zero-record requests immediately,
persist, deliver, respond 200 with the empty protobuf response, then delete
the stored entry (delete failures only logged). -/
def handleOTLPProtobuf (now : Nat) (w : World) (body : BodyBytes) (entryID key : String) :
    World × HTTPResponse :=
  match unmarshalProto body with
  | none => (w, errResponse HandlerError.badPayload)
  | some logs =>
    if logs.length = 0 then
      (w, { status := 200, contentTypeHdr := some "application/x-protobuf",
            body := RespBody.emptyProtoResp })
    else
      let entry : AuditLogEntry :=
        { id := entryID, timestamp := now, body := body,
          contentType := "application/x-protobuf" }
      match persistEntry w key entry with
      | none => (w, errResponse HandlerError.storageError)
      | some w1 =>
        let r := ConsumeLogs w1 logs
        if r.1 = false then (r.2, errResponse HandlerError.consumerError)
        else
          (deleteQuietly r.2 key,
           { status := 200, contentTypeHdr := some "application/x-protobuf",
             body := RespBody.emptyProtoResp })

/-- handleOTLPJSON: decode the JSON request, re-encode it to protobuf for
storage (stored content type becomes protobuf), then proceed as the protobuf
handler but answer with the JSON response and header. -/
def handleOTLPJSON (now : Nat) (w : World) (body : BodyBytes) (entryID key : String) :
    World × HTTPResponse :=
  match unmarshalJSON body with
  | none => (w, errResponse HandlerError.badPayload)
  | some logs =>
    if logs.length = 0 then
      (w, { status := 200, contentTypeHdr := some "application/json",
            body := RespBody.emptyJSONResp })
    else
      let entry : AuditLogEntry :=
        { id := entryID, timestamp := now, body := marshalProto logs,
          contentType := "application/x-protobuf" }
      match persistEntry w key entry with
      | none => (w, errResponse HandlerError.storageError)
      | some w1 =>
        let r := ConsumeLogs w1 logs
        if r.1 = false then (r.2, errResponse HandlerError.consumerError)
        else
          (deleteQuietly r.2 key,
           { status := 200, contentTypeHdr := some "application/json",
             body := RespBody.emptyJSONResp })

/-- Which branch of handleAuditLogs produced the response. -/
inductive IngestPath where
  | rejected
  | protoPath
  | jsonPath
  | opaquePath
deriving DecidableEq, Repr

/-- The trailing opaque-body branch of handleAuditLogs: store the raw body,
answer 202 Accepted, attempt inline processing, delete on success. -/
def handleOpaque (now : Nat) (w : World) (contentType : String) (body : BodyBytes)
    (entryID : String) : World × HTTPResponse × IngestPath :=
  let entry : AuditLogEntry :=
    { id := entryID, timestamp := now, body := body, contentType := contentType }
  match w.store with
  | none => (w, errResponse HandlerError.storageNotInitialized, IngestPath.opaquePath)
  | some s =>
    match storeLogAndUpdateKeysList s entryID (Blob.entryBlob entry) with
    | Except.error _ => (w, errResponse HandlerError.storageError, IngestPath.opaquePath)
    | Except.ok (ops, s2) =>
      let w1 := { w with store := some s2, writes := w.writes ++ [ops] }
      let r := processAuditLog now w1 entry
      let w2 := if r.1 then deleteQuietly r.2 entryID else r.2
      (w2, { status := 202, contentTypeHdr := none, body := RespBody.acceptedBody },
       IngestPath.opaquePath)

/-- handleAuditLogs: method check, content-type validation, then dispatch to
the protobuf or JSON handler; the remaining opaque-body code follows the two
dispatches in the source.  The fresh UUID serves as both entry id and key. -/
def handleAuditLogs (now : Nat) (w : World) (method contentType : String) (body : BodyBytes)
    (entryID : String) : World × HTTPResponse × IngestPath :=
  if method ≠ "POST" then
    (w, errResponse HandlerError.methodNotAllowed, IngestPath.rejected)
  else if contentType ≠ "application/x-protobuf" ∧ contentType ≠ "application/json" ∧
      contentType ≠ "application/vnd.google.protobuf" then
    (w, errResponse HandlerError.unsupportedContentType, IngestPath.rejected)
  else if contentType = "application/x-protobuf" ∨ contentType = "application/vnd.google.protobuf" then
    let r := handleOTLPProtobuf now w body entryID entryID
    (r.1, r.2, IngestPath.protoPath)
  else if contentType = "application/json" then
    let r := handleOTLPJSON now w body entryID entryID
    (r.1, r.2, IngestPath.jsonPath)
  else
    handleOpaque now w contentType body entryID

/-- One iteration of the reprocessor's per-key loop in processStoredLogs:
ghost keys are removed from the index, undecodable entries and too-young
entries are skipped, the breaker is consulted, and a successfully processed
entry is deleted together with its index reference. -/
def tickStep (now cutoff : Nat) (w : World) (key : String) : World :=
  match w.store with
  | none => w
  | some s =>
    match s key with
    | none => { w with store := some (removeFromKeysList s key) }
    | some (Blob.keysBlob _) => w
    | some (Blob.entryBlob e) =>
      if cutoff < e.timestamp then w
      else
        let gate :=
          if w.cbConfig.enabled then CheckCircuitBreakerState w.cbConfig now w.cb
          else (true, w.cb)
        let w1 := { w with cb := gate.2 }
        if gate.1 = false then w1
        else
          let r := processAuditLog now w1 e
          if r.1 = false then r.2
          else deleteQuietly r.2 key

/-- processStoredLogs: one reprocessor tick.  Returns immediately when storage
is nil or the keys list cannot be read; otherwise walks the key snapshot. -/
def processStoredLogs (now : Nat) (w : World) : World :=
  match w.store with
  | none => w
  | some s =>
    match getAllKeysE s with
    | Except.error _ => w
    | Except.ok keys =>
      let ageThreshold :=
        if w.processAgeThreshold = 0 then defaultProcessInterval else w.processAgeThreshold
      let cutoff := now - ageThreshold
      keys.foldl (tickStep now cutoff) w

/-- The empty store. -/
def emptyStore : Store := fun _ => none

/-- A sample one-record batch. -/
def sampleLogs : PLogs := ["hello"]

/-- A sample stored entry blob. -/
def sampleEntryBlob : Blob :=
  Blob.entryBlob
    { id := "k1", timestamp := 0, body := BodyBytes.protoBytes sampleLogs,
      contentType := "application/x-protobuf" }

/-- A world with freshly resolved empty storage, a healthy consumer and the
zero (all-defaulted) breaker configuration. -/
def okWorld : World :=
  { store := some emptyStore
    cb := NewCircuitBreaker
    cbConfig := { enabled := true, circuitOpenThreshold := 0, circuitOpenDuration := 0 }
    processAgeThreshold := 0
    consumeOk := fun _ => true
    calls := []
    writes := [] }

/-- okWorld with an always-failing consumer. -/
def failWorld : World := { okWorld with consumeOk := fun _ => false }

/-- okWorld with a nil storage client (Start not yet run). -/
def nilStorageWorld : World := { okWorld with store := none }

/-- The breaker configuration of the spec's threshold-3 scenario. -/
def cfgT3 : CircuitBreakerConfig :=
  { enabled := true, circuitOpenThreshold := 3, circuitOpenDuration := 1000 }

/-- An open breaker whose last failure was at instant 100. -/
def cbOpenNow : CircuitBreaker :=
  { state := CBState.circuitOpen, consecutiveFails := 3, lastFailureTime := 100 }

/-- A failing-consumer world whose breaker is open and not yet eligible for
half-open. -/
def openIngestWorld : World := { failWorld with cb := cbOpenNow, cbConfig := cfgT3 }

/-- A failing-consumer world with a fresh breaker under the threshold-3
configuration. -/
def closedFailT3World : World := { failWorld with cbConfig := cfgT3 }

/-- A sample stored audit-log entry. -/
def sampleEntry : AuditLogEntry :=
  { id := "k1", timestamp := 0, body := BodyBytes.protoBytes sampleLogs,
    contentType := "application/x-protobuf" }

/-- The keys list of the world's store is readable (vacuously so for a nil
storage client). -/
def storageReadable (w : World) : Prop :=
  ∀ s, w.store = some s → indexOk s = true

/-- The world after n failing deliveries of sampleEntry through
processAuditLog, starting from the threshold-3 failing-consumer world. -/
def failSeq : Nat → World
  | 0 => closedFailT3World
  | n + 1 => (processAuditLog 0 (failSeq n) sampleEntry).2

/-- The store of a world, total: the empty store when storage is nil. -/
def worldStore (w : World) : Store :=
  match w.store with
  | none => fun _ => none
  | some s => s

/-- The per-key effect of one reprocessor step on the store it started from:
the index stays readable, the processed key is indexed iff its blob exists,
all other keys keep their blob and their index membership, and no blob is
ever created or replaced. -/
def stepInv (s : Store) (key : String) (s1 : Store) : Prop :=
  indexOk s1 = true ∧
  ((key ∈ idxKeys s1) ↔ (s1 key).isSome = true) ∧
  (∀ k2, k2 ≠ keysListKey → k2 ≠ key →
    s1 k2 = s k2 ∧ (k2 ∈ idxKeys s1 ↔ k2 ∈ idxKeys s)) ∧
  (∀ k2, k2 ≠ keysListKey → (s1 k2).isSome = true → s1 k2 = s k2)

/-- The cumulative effect of the reprocessor walk over a key snapshot. -/
def foldInv (s : Store) (todo : List String) (s2 : Store) : Prop :=
  indexOk s2 = true ∧
  (∀ k ∈ todo, (k ∈ idxKeys s2) ↔ (s2 k).isSome = true) ∧
  (∀ k2, k2 ≠ keysListKey → k2 ∉ todo →
    s2 k2 = s k2 ∧ (k2 ∈ idxKeys s2 ↔ k2 ∈ idxKeys s)) ∧
  (∀ k2, k2 ≠ keysListKey → (s2 k2).isSome = true → s2 k2 = s k2)

/-- The ghost-reconciliation scenario of the spec: the index lists A and B
but only A's blob exists. -/
def ghostStore : Store :=
  storeSet (storeSet emptyStore keysListKey (Blob.keysBlob ["A", "B"])) "A"
    (Blob.entryBlob
      { id := "A", timestamp := 0, body := BodyBytes.protoBytes sampleLogs,
        contentType := "application/x-protobuf" })

/-- The failing-consumer world seeded with ghostStore. -/
def ghostWorld : World := { failWorld with store := some ghostStore }

/-- The 200 OK response of the protobuf path: empty protobuf
ExportLogsServiceResponse with the hard-coded protobuf Content-Type. -/
def protoOKResp : HTTPResponse :=
  { status := 200, contentTypeHdr := some "application/x-protobuf",
    body := RespBody.emptyProtoResp }

/-- The 200 OK response of the JSON path: empty JSON ExportLogsServiceResponse
with the JSON Content-Type. -/
def jsonOKResp : HTTPResponse :=
  { status := 200, contentTypeHdr := some "application/json",
    body := RespBody.emptyJSONResp }

/-- C4: the circuit breaker starts closed with zero consecutive failures;
CheckCircuitBreakerState performs the open to half-open transition exactly
when the effective open duration (time.Minute when unset) has elapsed since
the last failure, and returns true iff the resulting state is closed or
half-open; RecordFailure increments the counter, stamps the failure time,
moves half-open to open unconditionally and otherwise to open once the
counter reaches the effective threshold (5 when unset); RecordSuccess resets
the counter and forces closed. -/
theorem circuit_breaker_contract (cfg : CircuitBreakerConfig) (now : Nat) (cb : CircuitBreaker) :
    (NewCircuitBreaker.state = CBState.circuitClosed ∧ NewCircuitBreaker.consecutiveFails = 0) ∧
    (∀ e t, effThreshold { enabled := e, circuitOpenThreshold := 0, circuitOpenDuration := t } = 5) ∧
    (∀ e t, effOpenDuration { enabled := e, circuitOpenThreshold := t, circuitOpenDuration := 0 } = timeMinute) ∧
    ((CheckCircuitBreakerState cfg now cb).2 =
      if cb.state = CBState.circuitOpen ∧ effOpenDuration cfg ≤ now - cb.lastFailureTime then
        { cb with state := CBState.circuitHalfOpen }
      else cb) ∧
    ((CheckCircuitBreakerState cfg now cb).1 = true ↔
      ((CheckCircuitBreakerState cfg now cb).2.state = CBState.circuitClosed ∨
       (CheckCircuitBreakerState cfg now cb).2.state = CBState.circuitHalfOpen)) ∧
    (RecordFailure cfg now cb).consecutiveFails = cb.consecutiveFails + 1 ∧
    (RecordFailure cfg now cb).lastFailureTime = now ∧
    ((RecordFailure cfg now cb).state =
      if cb.state = CBState.circuitHalfOpen then CBState.circuitOpen
      else if effThreshold cfg ≤ cb.consecutiveFails + 1 then CBState.circuitOpen
      else cb.state) ∧
    (RecordSuccess cb).consecutiveFails = 0 ∧ (RecordSuccess cb).state = CBState.circuitClosed := by
  refine ⟨⟨rfl, rfl⟩, fun e t => rfl, fun e t => rfl, ?_, ?_, ?_, ?_, ?_, rfl, rfl⟩
  · simp only [CheckCircuitBreakerState, CheckAndUpdateState]
    by_cases ho : cb.state = CBState.circuitOpen <;>
      by_cases hd : effOpenDuration cfg ≤ now - cb.lastFailureTime <;>
      simp [ho, hd]
  · simp only [CheckCircuitBreakerState, ShouldAttemptProcessing]
    simp [Bool.or_eq_true, decide_eq_true_iff]
  · simp only [RecordFailure]
    split_ifs <;> rfl
  · simp only [RecordFailure]
    split_ifs <;> rfl
  · simp only [RecordFailure]
    by_cases hh : cb.state = CBState.circuitHalfOpen <;>
      by_cases ht : effThreshold cfg ≤ cb.consecutiveFails + 1 <;>
      simp [hh, ht]

/-- C3: every store of an entry issues one batch holding Set(entryKey, blob)
plus, only when the key is not yet indexed, Set(__keys_list__, newIndex);
every removal issues one batch holding Delete(entryKey) plus, when the
remaining index is non-empty, Set(__keys_list__, newIndex), and otherwise
Delete(__keys_list__). -/
theorem index_batch_contents (s : Store) (key : String) (d : Blob) (keys : List String)
    (hs : getAllKeysE s = Except.ok keys) :
    storeLogAndUpdateKeysList s key d =
      Except.ok (storeLogOps keys key d, applyOps s (storeLogOps keys key d)) ∧
    StorageOp.setOp key d ∈ storeLogOps keys key d ∧
    (key ∈ keys → storeLogOps keys key d = [StorageOp.setOp key d]) ∧
    (key ∉ keys →
      storeLogOps keys key d =
        [StorageOp.setOp key d, StorageOp.setOp keysListKey (Blob.keysBlob (keys ++ [key]))]) ∧
    deleteLogAndUpdateKeysList s key =
      Except.ok (deleteLogOps keys key, applyOps s (deleteLogOps keys key)) ∧
    StorageOp.delOp key ∈ deleteLogOps keys key ∧
    (keys.filter (fun k => k ≠ key) = [] →
      deleteLogOps keys key = [StorageOp.delOp key, StorageOp.delOp keysListKey]) ∧
    (keys.filter (fun k => k ≠ key) ≠ [] →
      deleteLogOps keys key =
        [StorageOp.delOp key,
         StorageOp.setOp keysListKey (Blob.keysBlob (keys.filter (fun k => k ≠ key)))]) := by
  refine ⟨by simp [storeLogAndUpdateKeysList, hs], ?_, ?_, ?_,
    by simp [deleteLogAndUpdateKeysList, hs], ?_, ?_, ?_⟩
  · simp [storeLogOps]
  · intro hk
    have hc : keys.contains key = true := List.elem_iff.mpr hk
    simp [storeLogOps, hc, hk]
  · intro hk
    have hc : keys.contains key = false := by
      cases hc2 : keys.contains key
      · rfl
      · exact absurd (List.elem_iff.mp hc2) hk
    simp [storeLogOps, hc, hk]
  · simp [deleteLogOps]
  · intro hf
    simp only [deleteLogOps]
    rw [hf]
    simp
  · intro hf
    simp only [deleteLogOps]
    have hE : (keys.filter (fun k => k ≠ key)).isEmpty = false := by
      cases hE2 : (keys.filter (fun k => k ≠ key)).isEmpty
      · rfl
      · exact absurd (List.isEmpty_iff.mp hE2) hf
    rw [hE]
    simp

/-- Witness for index_batch_contents at the empty store. -/
theorem index_batch_contents_witness :
    storeLogAndUpdateKeysList emptyStore "k1" sampleEntryBlob =
      Except.ok (storeLogOps [] "k1" sampleEntryBlob,
        applyOps emptyStore (storeLogOps [] "k1" sampleEntryBlob)) :=
  (index_batch_contents emptyStore "k1" sampleEntryBlob [] rfl).1

/-- Every response of the protobuf handler is either the canonical 200
protobuf response or an error response whose status is not 200. -/
theorem handleOTLPProtobuf_resp (now : Nat) (w : World) (body : BodyBytes) (entryID key : String) :
    (handleOTLPProtobuf now w body entryID key).2 = protoOKResp ∨
    (handleOTLPProtobuf now w body entryID key).2.status ≠ 200 := by
  unfold handleOTLPProtobuf
  split
  · right; simp [errResponse, httpStatusOf]
  · split
    · left; rfl
    · dsimp only
      split
      · right; simp [errResponse, httpStatusOf]
      · split
        · right; simp [errResponse, httpStatusOf]
        · left; rfl

/-- Every response of the JSON handler is either the canonical 200 JSON
response or an error response whose status is not 200. -/
theorem handleOTLPJSON_resp (now : Nat) (w : World) (body : BodyBytes) (entryID key : String) :
    (handleOTLPJSON now w body entryID key).2 = jsonOKResp ∨
    (handleOTLPJSON now w body entryID key).2.status ≠ 200 := by
  unfold handleOTLPJSON
  split
  · right; simp [errResponse, httpStatusOf]
  · split
    · left; rfl
    · dsimp only
      split
      · right; simp [errResponse, httpStatusOf]
      · split
        · right; simp [errResponse, httpStatusOf]
        · left; rfl

/-- C7: a non-POST request is rejected with 405 Method Not Allowed and leaves
the world untouched: no storage write, no consumer call. -/
theorem non_post_rejected (now : Nat) (w : World) (method contentType : String)
    (body : BodyBytes) (entryID : String) (h : method ≠ "POST") :
    handleAuditLogs now w method contentType body entryID =
      (w, errResponse HandlerError.methodNotAllowed, IngestPath.rejected) ∧
    (errResponse HandlerError.methodNotAllowed).status = 405 ∧
    (handleAuditLogs now w method contentType body entryID).1.writes = w.writes ∧
    (handleAuditLogs now w method contentType body entryID).1.calls = w.calls := by
  have h1 : handleAuditLogs now w method contentType body entryID =
      (w, errResponse HandlerError.methodNotAllowed, IngestPath.rejected) := by
    simp [handleAuditLogs, h]
  exact ⟨h1, rfl, by rw [h1], by rw [h1]⟩

/-- Witness for non_post_rejected: a GET request. -/
theorem non_post_rejected_witness :
    handleAuditLogs 0 okWorld "GET" "application/json" (BodyBytes.jsonBytes sampleLogs) "id1" =
      (okWorld, errResponse HandlerError.methodNotAllowed, IngestPath.rejected) :=
  (non_post_rejected 0 okWorld "GET" "application/json" (BodyBytes.jsonBytes sampleLogs) "id1"
    (by decide)).1

/-- C9: handleAuditLogs never reaches the trailing opaque-body branch; each of
the three accepted content types is delegated to the protobuf or JSON OTLP
handler. -/
theorem opaque_branch_unreachable (now : Nat) (w : World) (method contentType : String)
    (body : BodyBytes) (entryID : String) :
    (handleAuditLogs now w method contentType body entryID).2.2 ≠ IngestPath.opaquePath ∧
    handleAuditLogs now w "POST" "application/x-protobuf" body entryID =
      ((handleOTLPProtobuf now w body entryID entryID).1,
       (handleOTLPProtobuf now w body entryID entryID).2, IngestPath.protoPath) ∧
    handleAuditLogs now w "POST" "application/vnd.google.protobuf" body entryID =
      ((handleOTLPProtobuf now w body entryID entryID).1,
       (handleOTLPProtobuf now w body entryID entryID).2, IngestPath.protoPath) ∧
    handleAuditLogs now w "POST" "application/json" body entryID =
      ((handleOTLPJSON now w body entryID entryID).1,
       (handleOTLPJSON now w body entryID entryID).2, IngestPath.jsonPath) := by
  refine ⟨?_, by simp [handleAuditLogs], by simp [handleAuditLogs], by simp [handleAuditLogs]⟩
  by_cases hm : method = "POST"
  · subst hm
    by_cases h1 : contentType = "application/x-protobuf"
    · subst h1; simp [handleAuditLogs]
    · by_cases h2 : contentType = "application/vnd.google.protobuf"
      · subst h2; simp [handleAuditLogs]
      · by_cases h3 : contentType = "application/json"
        · subst h3; simp [handleAuditLogs]
        · simp [handleAuditLogs, h1, h2, h3]
  · simp [handleAuditLogs, hm]

/-- C10: with a nil storage client both OTLP handlers skip persistence
entirely (no store, no writes) and still acknowledge a successful consumer
call with 200 OK. -/
theorem nil_storage_success_ack (now : Nat) (w : World) (entryID key : String) (logs : PLogs)
    (hs : w.store = none) (hne : logs ≠ []) (hok : w.consumeOk w.calls.length = true) :
    (handleOTLPProtobuf now w (BodyBytes.protoBytes logs) entryID key).2.status = 200 ∧
    (handleOTLPProtobuf now w (BodyBytes.protoBytes logs) entryID key).1.store = none ∧
    (handleOTLPProtobuf now w (BodyBytes.protoBytes logs) entryID key).1.writes = w.writes ∧
    (handleOTLPProtobuf now w (BodyBytes.protoBytes logs) entryID key).1.calls = w.calls ++ [logs] ∧
    (handleOTLPJSON now w (BodyBytes.jsonBytes logs) entryID key).2.status = 200 ∧
    (handleOTLPJSON now w (BodyBytes.jsonBytes logs) entryID key).1.store = none ∧
    (handleOTLPJSON now w (BodyBytes.jsonBytes logs) entryID key).1.writes = w.writes ∧
    (handleOTLPJSON now w (BodyBytes.jsonBytes logs) entryID key).1.calls = w.calls ++ [logs] := by
  have hlen : ¬(logs.length = 0) := fun h => hne (List.length_eq_zero.mp h)
  have hp : handleOTLPProtobuf now w (BodyBytes.protoBytes logs) entryID key =
      ({ w with calls := w.calls ++ [logs] }, protoOKResp) := by
    simp [handleOTLPProtobuf, unmarshalProto, hlen, persistEntry, hs, ConsumeLogs, hok,
      deleteQuietly, protoOKResp]
  have hj : handleOTLPJSON now w (BodyBytes.jsonBytes logs) entryID key =
      ({ w with calls := w.calls ++ [logs] }, jsonOKResp) := by
    simp [handleOTLPJSON, unmarshalJSON, hlen, persistEntry, hs, ConsumeLogs, hok,
      deleteQuietly, jsonOKResp]
  rw [hp, hj]
  exact ⟨rfl, hs, rfl, rfl, rfl, hs, rfl, rfl⟩

/-- Witness for nil_storage_success_ack at a concrete nil-storage world. -/
theorem nil_storage_success_ack_witness :
    (handleOTLPProtobuf 0 nilStorageWorld (BodyBytes.protoBytes sampleLogs) "id1" "id1").2.status = 200 :=
  (nil_storage_success_ack 0 nilStorageWorld "id1" "id1" sampleLogs rfl (by decide) rfl).1

/-- C8 counterexample: a successful ingest whose request Content-Type is
application/vnd.google.protobuf receives a response whose Content-Type header
is application/x-protobuf, not the request's content type. -/
theorem response_content_type_counterexample :
    (handleAuditLogs 0 nilStorageWorld "POST" "application/vnd.google.protobuf"
        (BodyBytes.protoBytes sampleLogs) "id1").2.1 = protoOKResp ∧
    protoOKResp.status = 200 ∧
    protoOKResp.contentTypeHdr ≠ some "application/vnd.google.protobuf" := by
  decide

/-- C8 amended: every successful (200) ingest answers with the canonical empty
OTLP ExportLogsServiceResponse, and the response Content-Type is the
hard-coded application/x-protobuf on the protobuf path (for both protobuf
request content types) and application/json on the JSON path. -/
theorem response_content_type_amended (now : Nat) (w : World) (body : BodyBytes)
    (entryID key : String) :
    ((handleOTLPProtobuf now w body entryID key).2.status = 200 →
      (handleOTLPProtobuf now w body entryID key).2 = protoOKResp) ∧
    ((handleOTLPJSON now w body entryID key).2.status = 200 →
      (handleOTLPJSON now w body entryID key).2 = jsonOKResp) := by
  constructor
  · intro h200
    rcases handleOTLPProtobuf_resp now w body entryID key with h | h
    · exact h
    · exact absurd h200 h
  · intro h200
    rcases handleOTLPJSON_resp now w body entryID key with h | h
    · exact h
    · exact absurd h200 h

/-- Witness for response_content_type_amended at a concrete successful
ingest. -/
theorem response_content_type_amended_witness :
    (handleOTLPProtobuf 0 nilStorageWorld (BodyBytes.protoBytes sampleLogs) "id1" "id1").2 =
      protoOKResp :=
  (response_content_type_amended 0 nilStorageWorld (BodyBytes.protoBytes sampleLogs)
    "id1" "id1").1 (by decide)

/-- deleteQuietly never touches the breaker, the consumer-call log, the
consumer, the config or the age threshold. -/
theorem deleteQuietly_frame (w : World) (key : String) :
    (deleteQuietly w key).cb = w.cb ∧ (deleteQuietly w key).calls = w.calls ∧
    (deleteQuietly w key).cbConfig = w.cbConfig ∧
    (deleteQuietly w key).consumeOk = w.consumeOk := by
  unfold deleteQuietly
  split
  · exact ⟨rfl, rfl, rfl, rfl⟩
  · split
    · exact ⟨rfl, rfl, rfl, rfl⟩
    · exact ⟨rfl, rfl, rfl, rfl⟩

/-- deleteQuietly leaves the breaker unchanged. -/
theorem deleteQuietly_cb (w : World) (key : String) : (deleteQuietly w key).cb = w.cb := by
  unfold deleteQuietly
  split
  · rfl
  · split <;> rfl

/-- deleteQuietly leaves the consumer-call log unchanged. -/
theorem deleteQuietly_calls (w : World) (key : String) :
    (deleteQuietly w key).calls = w.calls := by
  unfold deleteQuietly
  split
  · rfl
  · split <;> rfl

/-- persistEntry never touches the breaker, the consumer-call log, the
consumer or the config. -/
theorem persistEntry_frame (w : World) (key : String) (e : AuditLogEntry) (w1 : World)
    (h : persistEntry w key e = some w1) :
    w1.cb = w.cb ∧ w1.calls = w.calls ∧ w1.cbConfig = w.cbConfig ∧
    w1.consumeOk = w.consumeOk := by
  unfold persistEntry at h
  split at h
  · cases h
    exact ⟨rfl, rfl, rfl, rfl⟩
  · split at h
    · cases h
    · cases h
      exact ⟨rfl, rfl, rfl, rfl⟩

/-- The keys list is readable iff getAllKeys succeeds. -/
theorem indexOk_iff (s : Store) : indexOk s = true ↔ ∃ ks, getAllKeysE s = Except.ok ks := by
  unfold indexOk
  constructor
  · intro h
    split at h
    · rename_i ks hks
      exact ⟨ks, hks⟩
    · cases h
  · rintro ⟨ks, hks⟩
    rw [hks]

/-- Neither OTLP ingest handler consults or updates the circuit breaker. -/
theorem handleOTLP_cb_frame (now : Nat) (w : World) (body : BodyBytes) (entryID key : String) :
    (handleOTLPProtobuf now w body entryID key).1.cb = w.cb ∧
    (handleOTLPJSON now w body entryID key).1.cb = w.cb := by
  constructor
  · unfold handleOTLPProtobuf
    split
    · rfl
    · rename_i lo logs0 heq0
      split
      · rfl
      · dsimp only
        split
        · rfl
        · rename_i w1 hw1
          have hp := persistEntry_frame w key _ w1 hw1
          split
          · simp [ConsumeLogs, hp.1]
          · rw [deleteQuietly_cb]
            exact hp.1
  · unfold handleOTLPJSON
    split
    · rfl
    · rename_i lo logs0 heq0
      split
      · rfl
      · dsimp only
        split
        · rfl
        · rename_i w1 hw1
          have hp := persistEntry_frame w key _ w1 hw1
          split
          · simp [ConsumeLogs, hp.1]
          · rw [deleteQuietly_cb]
            exact hp.1

/-- With a readable keys list the protobuf ingest handler delivers every
non-empty decodable batch to the consumer, whatever the breaker state. -/
theorem handleOTLPProtobuf_calls (now : Nat) (w : World) (body : BodyBytes) (entryID key : String)
    (logs : PLogs) (hb : unmarshalProto body = some logs) (hne : logs ≠ [])
    (hsr : storageReadable w) :
    (handleOTLPProtobuf now w body entryID key).1.calls = w.calls ++ [logs] := by
  have hlen : ¬(logs.length = 0) := fun h0 => hne (List.length_eq_zero.mp h0)
  have hpe : ∃ w1, persistEntry w key
      { id := entryID, timestamp := now, body := body,
        contentType := "application/x-protobuf" } = some w1 ∧
      w1.calls = w.calls ∧ w1.consumeOk = w.consumeOk := by
    rcases hst : w.store with _ | s
    · refine ⟨w, ?_, rfl, rfl⟩
      unfold persistEntry
      rw [hst]
    · obtain ⟨ks, hks⟩ := (indexOk_iff s).mp (hsr s hst)
      have hstep : persistEntry w key
          { id := entryID, timestamp := now, body := body,
            contentType := "application/x-protobuf" } =
          some { w with
            store := some (applyOps s (storeLogOps ks key (Blob.entryBlob
              { id := entryID, timestamp := now, body := body,
                contentType := "application/x-protobuf" }))),
            writes := w.writes ++ [storeLogOps ks key (Blob.entryBlob
              { id := entryID, timestamp := now, body := body,
                contentType := "application/x-protobuf" })] } := by
        unfold persistEntry
        rw [hst]
        dsimp only
        unfold storeLogAndUpdateKeysList
        rw [hks]
      exact ⟨_, hstep, rfl, rfl⟩
  obtain ⟨w1, hw1, hc1, hok1⟩ := hpe
  unfold handleOTLPProtobuf
  rw [hb]
  dsimp only
  rw [if_neg hlen, hw1]
  dsimp only
  split
  · simp [ConsumeLogs, hc1]
  · rw [deleteQuietly_calls]
    simp [ConsumeLogs, hc1]

/-- processAuditLog does not call the consumer when the enabled breaker
disallows attempts, and it never touches the store or the write trace. -/
theorem processAuditLog_gate_frame (now : Nat) (w : World) (e : AuditLogEntry) :
    (w.cbConfig.enabled = true → (CheckCircuitBreakerState w.cbConfig now w.cb).1 = false →
      (processAuditLog now w e).2.calls = w.calls) ∧
    (processAuditLog now w e).2.store = w.store ∧
    (processAuditLog now w e).2.writes = w.writes := by
  refine ⟨?_, ?_⟩
  · intro hen hgate
    unfold processAuditLog
    simp [hen, hgate]
  · unfold processAuditLog
    dsimp only
    repeat' split
    all_goals exact ⟨rfl, rfl⟩

/-- C2 counterexample: with the breaker open and disallowing attempts, the
OTLP ingest path still calls the consumer; and three failing ingests under
threshold 3 leave the breaker in its initial closed state with zero recorded
failures instead of driving it open. -/
theorem ingest_under_breaker_counterexample :
    (CheckCircuitBreakerState cfgT3 100 cbOpenNow).1 = false ∧
    (handleOTLPProtobuf 100 openIngestWorld (BodyBytes.protoBytes sampleLogs) "id1" "id1").1.calls
      = [sampleLogs] ∧
    ((handleOTLPProtobuf 2 ((handleOTLPProtobuf 1 ((handleOTLPProtobuf 0 closedFailT3World
        (BodyBytes.protoBytes sampleLogs) "a" "a").1) (BodyBytes.protoBytes sampleLogs) "b" "b").1)
        (BodyBytes.protoBytes sampleLogs) "c" "c").1).cb = NewCircuitBreaker ∧
    NewCircuitBreaker.state ≠ CBState.circuitOpen := by
  decide

/-- C2 amended: the OTLP ingest path attempts delivery unconditionally — the
breaker is neither consulted nor updated there, and the consumer receives
every non-empty decodable batch whatever the breaker state.  The breaker
instead gates processAuditLog (the reprocessor and opaque paths): when it
disallows attempts the consumer is not called and the entry stays persisted,
and its failure recording gives, with threshold 3, the transition sequence
closed, closed, closed, open over three failing deliveries. -/
theorem ingest_under_breaker_amended (now : Nat) (w : World) (body : BodyBytes)
    (entryID key : String) (logs : PLogs) (e : AuditLogEntry)
    (hb : unmarshalProto body = some logs) (hne : logs ≠ []) (hsr : storageReadable w) :
    (handleOTLPProtobuf now w body entryID key).1.cb = w.cb ∧
    (handleOTLPJSON now w body entryID key).1.cb = w.cb ∧
    (handleOTLPProtobuf now w body entryID key).1.calls = w.calls ++ [logs] ∧
    (w.cbConfig.enabled = true → (CheckCircuitBreakerState w.cbConfig now w.cb).1 = false →
      (processAuditLog now w e).2.calls = w.calls ∧
      (processAuditLog now w e).2.store = w.store) ∧
    (failSeq 0).cb.state = CBState.circuitClosed ∧
    (failSeq 1).cb.state = CBState.circuitClosed ∧
    (failSeq 2).cb.state = CBState.circuitClosed ∧
    (failSeq 3).cb.state = CBState.circuitOpen ∧
    (processAuditLog 0 (failSeq 3) sampleEntry).2.calls = (failSeq 3).calls := by
  refine ⟨(handleOTLP_cb_frame now w body entryID key).1,
    (handleOTLP_cb_frame now w body entryID key).2,
    handleOTLPProtobuf_calls now w body entryID key logs hb hne hsr,
    ?_, by decide, by decide, by decide, by decide, by decide⟩
  intro hen hgate
  exact ⟨((processAuditLog_gate_frame now w e).1 hen hgate),
    (processAuditLog_gate_frame now w e).2.1⟩

/-- Witness for ingest_under_breaker_amended: an ingest against the concrete
open-breaker failing-consumer world still reaches the consumer. -/
theorem ingest_under_breaker_amended_witness :
    (handleOTLPProtobuf 100 openIngestWorld (BodyBytes.protoBytes sampleLogs) "id1" "id1").1.calls
      = openIngestWorld.calls ++ [sampleLogs] :=
  (ingest_under_breaker_amended 100 openIngestWorld (BodyBytes.protoBytes sampleLogs) "id1" "id1"
    sampleLogs sampleEntry rfl (by decide)
    (fun s hs => by cases hs; rfl)).2.2.1

/-- Lookups after the store batch: the entry lands at its key and the keys
list blob is the appended index, or is untouched when the key was already
indexed. -/
theorem storeLog_lookup (s : Store) (keys : List String) (key : String) (d : Blob)
    (hkey : key ≠ keysListKey) :
    applyOps s (storeLogOps keys key d) key = some d ∧
    applyOps s (storeLogOps keys key d) keysListKey =
      (if keys.contains key then s keysListKey
       else some (Blob.keysBlob (keys ++ [key]))) := by
  by_cases hc : keys.contains key = true
  · have hmem : key ∈ keys := List.elem_iff.mp hc
    have hops : storeLogOps keys key d = [StorageOp.setOp key d] := by
      simp [storeLogOps, hc, hmem]
    rw [hops]
    simp [applyOps, applyOp, storeSet, hc, hmem, Ne.symm hkey]
  · have hnmem : key ∉ keys := fun h => hc (List.elem_iff.mpr h)
    have hc2 : keys.contains key = false := by
      cases h : keys.contains key
      · rfl
      · exact absurd h hc
    have hops : storeLogOps keys key d =
        [StorageOp.setOp key d, StorageOp.setOp keysListKey (Blob.keysBlob (keys ++ [key]))] := by
      simp [storeLogOps, hc2, hnmem]
    rw [hops]
    simp [applyOps, applyOp, storeSet, hc2, hnmem, hkey, Ne.symm hkey]

/-- After the store batch the keys list is still readable. -/
theorem storeLog_index_readable (s : Store) (keys : List String) (key : String) (d : Blob)
    (hks : getAllKeysE s = Except.ok keys) (hkey : key ≠ keysListKey) :
    ∃ ks2, getAllKeysE (applyOps s (storeLogOps keys key d)) = Except.ok ks2 := by
  have h2 := (storeLog_lookup s keys key d hkey).2
  by_cases hc : keys.contains key = true
  · rw [hc] at h2
    simp only [if_true] at h2
    rcases hsl : s keysListKey with _ | b
    · exact ⟨[], by unfold getAllKeysE; rw [h2, hsl]⟩
    · cases b with
      | entryBlob e =>
        exfalso
        unfold getAllKeysE at hks
        rw [hsl] at hks
        cases hks
      | keysBlob ks2 =>
        exact ⟨ks2, by unfold getAllKeysE; rw [h2, hsl]⟩
  · have hc2 : keys.contains key = false := by
      cases h : keys.contains key
      · rfl
      · exact absurd h hc
    rw [hc2] at h2
    simp only [Bool.false_eq_true, if_false] at h2
    exact ⟨keys ++ [key], by unfold getAllKeysE; rw [h2]⟩

/-- Lookups after the delete batch: the entry key is cleared, other entry
keys are untouched, index membership loses exactly the deleted key, and the
keys list stays readable. -/
theorem deleteLog_lookup (s : Store) (ks : List String) (key : String)
    (hkey : key ≠ keysListKey) :
    applyOps s (deleteLogOps ks key) key = none ∧
    (∀ k2, k2 ≠ keysListKey → k2 ≠ key → applyOps s (deleteLogOps ks key) k2 = s k2) ∧
    (∀ k2, k2 ∈ idxKeys (applyOps s (deleteLogOps ks key)) ↔ (k2 ∈ ks ∧ k2 ≠ key)) ∧
    indexOk (applyOps s (deleteLogOps ks key)) = true := by
  by_cases hE : (ks.filter (fun k => k ≠ key)).isEmpty = true
  · have hops : deleteLogOps ks key = [StorageOp.delOp key, StorageOp.delOp keysListKey] := by
      simp only [deleteLogOps]
      rw [hE]
      rfl
    have hnil : ks.filter (fun k => k ≠ key) = [] := List.isEmpty_iff.mp hE
    rw [hops]
    refine ⟨?_, ?_, ?_, ?_⟩
    · simp [applyOps, applyOp, storeDelete, hkey]
    · intro k2 h1 h2
      simp [applyOps, applyOp, storeDelete, h1, h2]
    · intro k2
      have hidx : idxKeys (applyOps s [StorageOp.delOp key, StorageOp.delOp keysListKey]) = [] := by
        simp [applyOps, applyOp, idxKeys, storeDelete]
      rw [hidx]
      constructor
      · intro h0
        exact absurd h0 (List.not_mem_nil k2)
      · rintro ⟨hmem, hne⟩
        have hmf : k2 ∈ ks.filter (fun k => k ≠ key) :=
          List.mem_filter.mpr ⟨hmem, by simpa using hne⟩
        rw [hnil] at hmf
        exact absurd hmf (List.not_mem_nil k2)
    · simp [indexOk, getAllKeysE, applyOps, applyOp, storeDelete]
  · have hE2 : (ks.filter (fun k => k ≠ key)).isEmpty = false := by
      cases h : (ks.filter (fun k => k ≠ key)).isEmpty
      · rfl
      · exact absurd h hE
    have hops : deleteLogOps ks key =
        [StorageOp.delOp key,
         StorageOp.setOp keysListKey (Blob.keysBlob (ks.filter (fun k => k ≠ key)))] := by
      simp only [deleteLogOps]
      rw [hE2]
      rfl
    rw [hops]
    refine ⟨?_, ?_, ?_, ?_⟩
    · simp [applyOps, applyOp, storeDelete, storeSet, hkey]
    · intro k2 h1 h2
      simp [applyOps, applyOp, storeDelete, storeSet, h1, h2]
    · intro k2
      simp only [applyOps, List.foldl, applyOp, idxKeys, storeSet, if_pos rfl]
      simp [List.mem_filter]
    · simp [indexOk, getAllKeysE, applyOps, applyOp, storeSet]

/-- deleteLogAndUpdateKeysList succeeds exactly when the keys list reads. -/
theorem deleteLog_run (s : Store) (ks : List String) (key : String)
    (hks : getAllKeysE s = Except.ok ks) :
    deleteLogAndUpdateKeysList s key =
      Except.ok (deleteLogOps ks key, applyOps s (deleteLogOps ks key)) := by
  unfold deleteLogAndUpdateKeysList
  rw [hks]

/-- C1: an ingest of a non-empty decodable OTLP protobuf batch that answers
200 OK has delivered that batch to the consumer exactly once and has removed
the stored entry: at handler return the entry key is absent from storage. -/
theorem ingest_200_exactly_once (now : Nat) (w : World) (body : BodyBytes) (entryID key : String)
    (logs : PLogs) (s : Store)
    (hb : unmarshalProto body = some logs) (hne : logs ≠ [])
    (hs : w.store = some s) (hkey : key ≠ keysListKey)
    (h200 : (handleOTLPProtobuf now w body entryID key).2.status = 200) :
    (handleOTLPProtobuf now w body entryID key).1.calls = w.calls ++ [logs] ∧
    storeLookup (handleOTLPProtobuf now w body entryID key).1 key = none ∧
    ((handleOTLPProtobuf now w body entryID key).1.store).isSome = true := by
  have hlen : ¬(logs.length = 0) := fun h0 => hne (List.length_eq_zero.mp h0)
  rcases hks : getAllKeysE s with u | keys
  · exfalso
    have : (handleOTLPProtobuf now w body entryID key).2 = errResponse HandlerError.storageError := by
      unfold handleOTLPProtobuf
      rw [hb]
      dsimp only
      rw [if_neg hlen]
      have hpe : persistEntry w key
          { id := entryID, timestamp := now, body := body,
            contentType := "application/x-protobuf" } = none := by
        unfold persistEntry
        rw [hs]
        dsimp only
        unfold storeLogAndUpdateKeysList
        rw [hks]
      rw [hpe]
    rw [this] at h200
    simp [errResponse, httpStatusOf] at h200
  · set entry : AuditLogEntry :=
      { id := entryID, timestamp := now, body := body,
        contentType := "application/x-protobuf" } with hentry
    set s2 : Store := applyOps s (storeLogOps keys key (Blob.entryBlob entry)) with hs2
    have hpe : persistEntry w key entry =
        some { w with
          store := some s2
          writes := w.writes ++ [storeLogOps keys key (Blob.entryBlob entry)] } := by
      unfold persistEntry
      rw [hs]
      dsimp only
      unfold storeLogAndUpdateKeysList
      rw [hks]
    set w1 : World := { w with
      store := some s2
      writes := w.writes ++ [storeLogOps keys key (Blob.entryBlob entry)] } with hw1
    have hrun : handleOTLPProtobuf now w body entryID key =
        (if (ConsumeLogs w1 logs).1 = false
         then ((ConsumeLogs w1 logs).2, errResponse HandlerError.consumerError)
         else (deleteQuietly (ConsumeLogs w1 logs).2 key, protoOKResp)) := by
      unfold handleOTLPProtobuf
      rw [hb]
      dsimp only
      rw [if_neg hlen, hpe]
      rfl
    by_cases hok : (ConsumeLogs w1 logs).1 = false
    · exfalso
      rw [hrun, if_pos hok] at h200
      simp [errResponse, httpStatusOf] at h200
    · rw [hrun, if_neg hok]
      dsimp only
      obtain ⟨ks2, hks2⟩ :=
        storeLog_index_readable s keys key (Blob.entryBlob entry) hks hkey
      have hdel := deleteLog_lookup s2 ks2 key hkey
      have hdrun : deleteQuietly (ConsumeLogs w1 logs).2 key =
          { (ConsumeLogs w1 logs).2 with
            store := some (applyOps s2 (deleteLogOps ks2 key))
            writes := (ConsumeLogs w1 logs).2.writes ++ [deleteLogOps ks2 key] } := by
        unfold deleteQuietly
        have hst : (ConsumeLogs w1 logs).2.store = some s2 := rfl
        rw [hst]
        dsimp only
        rw [deleteLog_run s2 ks2 key hks2]
      rw [hdrun]
      refine ⟨?_, ?_, rfl⟩
      · simp [ConsumeLogs]
      · simpa [storeLookup] using hdel.1

/-- Witness for ingest_200_exactly_once at the concrete healthy world. -/
theorem ingest_200_exactly_once_witness :
    (handleOTLPProtobuf 0 okWorld (BodyBytes.protoBytes sampleLogs) "id1" "id1").1.calls
      = okWorld.calls ++ [sampleLogs] :=
  (ingest_200_exactly_once 0 okWorld (BodyBytes.protoBytes sampleLogs) "id1" "id1"
    sampleLogs emptyStore rfl (by decide) rfl (by decide) (by decide)).1

/-- C5: a JSON ingest with at least one record persists an entry whose
content type is application/x-protobuf and whose body is the protobuf
re-encoding of the decoded request, so decoding the stored body yields the
original record set (observed here under a failing consumer, which leaves
the entry in storage). -/
theorem json_stored_as_protobuf (now : Nat) (w : World) (body : BodyBytes) (entryID key : String)
    (logs : PLogs) (s : Store)
    (hb : unmarshalJSON body = some logs) (hne : logs ≠ [])
    (hs : w.store = some s) (hkey : key ≠ keysListKey)
    (hks : indexOk s = true)
    (hfail : w.consumeOk w.calls.length = false) :
    storeLookup (handleOTLPJSON now w body entryID key).1 key =
      some (Blob.entryBlob
        { id := entryID, timestamp := now, body := marshalProto logs,
          contentType := "application/x-protobuf" }) ∧
    unmarshalProto (marshalProto logs) = some logs := by
  have hlen : ¬(logs.length = 0) := fun h0 => hne (List.length_eq_zero.mp h0)
  obtain ⟨keys, hkeys⟩ := (indexOk_iff s).mp hks
  set entry : AuditLogEntry :=
    { id := entryID, timestamp := now, body := marshalProto logs,
      contentType := "application/x-protobuf" } with hentry
  set s2 : Store := applyOps s (storeLogOps keys key (Blob.entryBlob entry)) with hs2
  have hpe : persistEntry w key entry =
      some { w with
        store := some s2
        writes := w.writes ++ [storeLogOps keys key (Blob.entryBlob entry)] } := by
    unfold persistEntry
    rw [hs]
    dsimp only
    unfold storeLogAndUpdateKeysList
    rw [hkeys]
  set w1 : World := { w with
    store := some s2
    writes := w.writes ++ [storeLogOps keys key (Blob.entryBlob entry)] } with hw1
  have hokv : (ConsumeLogs w1 logs).1 = false := hfail
  have hrun : handleOTLPJSON now w body entryID key =
      ((ConsumeLogs w1 logs).2, errResponse HandlerError.consumerError) := by
    unfold handleOTLPJSON
    rw [hb]
    dsimp only
    rw [if_neg hlen, hpe]
    dsimp only
    rw [if_pos hokv]
  rw [hrun]
  refine ⟨?_, rfl⟩
  have hst : (ConsumeLogs w1 logs).2.store = some s2 := rfl
  simp only [storeLookup, hst]
  exact (storeLog_lookup s keys key (Blob.entryBlob entry) hkey).1

/-- Witness for json_stored_as_protobuf at the concrete failing-consumer
world. -/
theorem json_stored_as_protobuf_witness :
    storeLookup (handleOTLPJSON 0 failWorld (BodyBytes.jsonBytes sampleLogs) "id1" "id1").1 "id1" =
      some (Blob.entryBlob
        { id := "id1", timestamp := 0, body := marshalProto sampleLogs,
          contentType := "application/x-protobuf" }) :=
  (json_stored_as_protobuf 0 failWorld (BodyBytes.jsonBytes sampleLogs) "id1" "id1"
    sampleLogs emptyStore rfl (by decide) rfl (by decide) rfl rfl).1

/-- A readable keys list reads as the store's index. -/
theorem getAllKeysE_idx (s : Store) (hok : indexOk s = true) :
    getAllKeysE s = Except.ok (idxKeys s) := by
  rcases hsl : s keysListKey with _ | b
  · unfold getAllKeysE idxKeys
    rw [hsl]
  · cases b with
    | entryBlob e =>
      exfalso
      unfold indexOk getAllKeysE at hok
      rw [hsl] at hok
      simp at hok
    | keysBlob ks =>
      unfold getAllKeysE idxKeys
      rw [hsl]

/-- removeFromKeysList on a readable index: entry blobs untouched, index
membership loses exactly the removed key, and the index stays readable. -/
theorem removeFromKeysList_lookup (s : Store) (ks : List String) (key : String)
    (hks : getAllKeysE s = Except.ok ks) :
    (∀ k2, k2 ≠ keysListKey → removeFromKeysList s key k2 = s k2) ∧
    (∀ k2, k2 ∈ idxKeys (removeFromKeysList s key) ↔ (k2 ∈ ks ∧ k2 ≠ key)) ∧
    indexOk (removeFromKeysList s key) = true := by
  have hrun : removeFromKeysList s key =
      (if (ks.filter (fun k => k ≠ key)).isEmpty then storeDelete s keysListKey
       else storeSet s keysListKey (Blob.keysBlob (ks.filter (fun k => k ≠ key)))) := by
    unfold removeFromKeysList
    rw [hks]
  rw [hrun]
  by_cases hE : (ks.filter (fun k => k ≠ key)).isEmpty = true
  · have hnil : ks.filter (fun k => k ≠ key) = [] := List.isEmpty_iff.mp hE
    rw [if_pos hE]
    refine ⟨?_, ?_, ?_⟩
    · intro k2 h1
      simp [storeDelete, h1]
    · intro k2
      have hidx : idxKeys (storeDelete s keysListKey) = [] := by
        simp [idxKeys, storeDelete]
      rw [hidx]
      constructor
      · intro h0
        exact absurd h0 (List.not_mem_nil k2)
      · rintro ⟨hmem, hne⟩
        have hmf : k2 ∈ ks.filter (fun k => k ≠ key) :=
          List.mem_filter.mpr ⟨hmem, by simpa using hne⟩
        rw [hnil] at hmf
        exact absurd hmf (List.not_mem_nil k2)
    · simp [indexOk, getAllKeysE, storeDelete]
  · rw [if_neg hE]
    refine ⟨?_, ?_, ?_⟩
    · intro k2 h1
      simp [storeSet, h1]
    · intro k2
      have hidx : idxKeys (storeSet s keysListKey
          (Blob.keysBlob (ks.filter (fun k => k ≠ key)))) = ks.filter (fun k => k ≠ key) := by
        simp [idxKeys, storeSet]
      rw [hidx]
      simp [List.mem_filter]
    · simp [indexOk, getAllKeysE, storeSet]

/-- processAuditLog never touches the store. -/
theorem processAuditLog_store (now : Nat) (w : World) (e : AuditLogEntry) :
    (processAuditLog now w e).2.store = w.store :=
  (processAuditLog_gate_frame now w e).2.1

/-- One reprocessor step establishes the per-key reconciliation property for
the key it visits. -/
theorem tickStep_spec (now cutoff : Nat) (w : World) (s : Store) (key : String)
    (hw : w.store = some s) (hok : indexOk s = true) (hkey : key ≠ keysListKey)
    (hmem : key ∈ idxKeys s) :
    ∃ s1, (tickStep now cutoff w key).store = some s1 ∧ stepInv s key s1 := by
  have hks : getAllKeysE s = Except.ok (idxKeys s) := getAllKeysE_idx s hok
  have hunch : (s key).isSome = true → stepInv s key s := by
    intro hsome
    refine ⟨hok, ?_, fun k2 _ _ => ⟨rfl, Iff.rfl⟩, fun k2 _ _ => rfl⟩
    constructor
    · intro _
      exact hsome
    · intro _
      exact hmem
  have hghost : s key = none → stepInv s key (removeFromKeysList s key) := by
    intro hnone
    obtain ⟨hfrm, hmem2, hok2⟩ := removeFromKeysList_lookup s (idxKeys s) key hks
    refine ⟨hok2, ?_,
      fun k2 h1 h2 => ⟨hfrm k2 h1, (hmem2 k2).trans (by simp [h2])⟩,
      fun k2 h1 _ => hfrm k2 h1⟩
    have h1 : removeFromKeysList s key key = none := by
      rw [hfrm key hkey, hnone]
    rw [h1]
    simp [hmem2 key]
  have hdelete : stepInv s key (applyOps s (deleteLogOps (idxKeys s) key)) := by
    obtain ⟨hkeyn, hfrm, hmem2, hok2⟩ := deleteLog_lookup s (idxKeys s) key hkey
    refine ⟨hok2, ?_,
      fun k2 h1 h2 => ⟨hfrm k2 h1 h2, (hmem2 k2).trans (by simp [h2])⟩, ?_⟩
    · rw [hkeyn]
      simp [hmem2 key]
    · intro k2 h1 hsome
      by_cases h2 : k2 = key
      · subst h2
        rw [hkeyn] at hsome
        simp at hsome
      · exact hfrm k2 h1 h2
  unfold tickStep
  rw [hw]
  dsimp only
  rcases hsk : s key with _ | b
  · exact ⟨removeFromKeysList s key, rfl, hghost hsk⟩
  · cases b with
    | keysBlob ks0 =>
      exact ⟨s, hw, hunch (by rw [hsk]; rfl)⟩
    | entryBlob e =>
      dsimp only
      by_cases ht : cutoff < e.timestamp
      · rw [if_pos ht]
        exact ⟨s, hw, hunch (by rw [hsk]; rfl)⟩
      · rw [if_neg ht]
        repeat' split
        all_goals
          first
          | exact ⟨s, rfl, hunch (by rw [hsk]; rfl)⟩
          | (refine ⟨s, ?_, hunch (by rw [hsk]; rfl)⟩
             rw [processAuditLog_store])
          | (refine ⟨applyOps s (deleteLogOps (idxKeys s) key), ?_, hdelete⟩
             unfold deleteQuietly
             rw [processAuditLog_store]
             dsimp only
             rw [deleteLog_run s (idxKeys s) key hks])

/-- The reprocessor walk over a duplicate-free key snapshot reconciles every
visited key while leaving unvisited keys untouched. -/
theorem tick_fold_spec (now cutoff : Nat) (todo : List String) :
    ∀ (w : World) (s : Store),
      w.store = some s → indexOk s = true → todo.Nodup →
      (∀ k ∈ todo, k ≠ keysListKey) → (∀ k ∈ todo, k ∈ idxKeys s) →
      ∃ s2, (todo.foldl (tickStep now cutoff) w).store = some s2 ∧ foldInv s todo s2 := by
  induction todo with
  | nil =>
    intro w s hw hok _ _ _
    exact ⟨s, hw, hok, by simp, fun k2 _ _ => ⟨rfl, Iff.rfl⟩, fun k2 _ _ => rfl⟩
  | cons k rest ih =>
    intro w s hw hok hnd hkl hidx
    have hkmem : k ∈ k :: rest := List.mem_cons_self k rest
    obtain ⟨s1, hs1, hok1, hkey1, hframe1, hshrink1⟩ :=
      tickStep_spec now cutoff w s k hw hok (hkl k hkmem) (hidx k hkmem)
    have hnd2 : rest.Nodup := (List.nodup_cons.mp hnd).2
    have hknr : k ∉ rest := (List.nodup_cons.mp hnd).1
    have hkl2 : ∀ k2 ∈ rest, k2 ≠ keysListKey :=
      fun k2 h => hkl k2 (List.mem_cons_of_mem _ h)
    have hidx2 : ∀ k2 ∈ rest, k2 ∈ idxKeys s1 := by
      intro k2 h
      have hne : k2 ≠ k := fun heq => hknr (heq ▸ h)
      exact ((hframe1 k2 (hkl2 k2 h) hne).2).mpr (hidx k2 (List.mem_cons_of_mem _ h))
    obtain ⟨s2, hs2, hok2, hP1, hP2, hP3⟩ :=
      ih (tickStep now cutoff w k) s1 hs1 hok1 hnd2 hkl2 hidx2
    refine ⟨s2, by rwa [List.foldl_cons], hok2, ?_, ?_, ?_⟩
    · intro k2 hk2
      rcases List.mem_cons.mp hk2 with rfl | hk2r
      · have hfr := hP2 k2 (hkl k2 hkmem) hknr
        rw [hfr.1]
        exact hfr.2.trans hkey1
      · exact hP1 k2 hk2r
    · intro k2 h1 h2
      have hne : k2 ≠ k := fun heq => h2 (heq ▸ hkmem)
      have hnr : k2 ∉ rest := fun h => h2 (List.mem_cons_of_mem _ h)
      have hfr2 := hP2 k2 h1 hnr
      have hfr1 := hframe1 k2 h1 hne
      exact ⟨hfr2.1.trans hfr1.1, hfr2.2.trans hfr1.2⟩
    · intro k2 h1 h2
      have e2 := hP3 k2 h1 h2
      have h2b : (s1 k2).isSome = true := by
        rw [← e2]
        exact h2
      exact e2.trans (hshrink1 k2 h1 h2b)

/-- C6: a reprocessor tick on a readable, duplicate-free index that lists
every stored entry key never fails on ghost keys: listing the index succeeds,
ghost keys are removed from the index rather than treated as errors, and
after the tick the key index is still readable and holds exactly the keys
whose entry blobs exist. -/
theorem ghost_keys_reconciled (now : Nat) (w : World) (s : Store) (keys0 : List String)
    (hw : w.store = some s)
    (hkl : s keysListKey = some (Blob.keysBlob keys0))
    (hnd : keys0.Nodup)
    (hres : keysListKey ∉ keys0)
    (horph : ∀ k, k ≠ keysListKey → (s k).isSome = true → k ∈ keys0) :
    getAllKeysE s = Except.ok keys0 ∧
    ((processStoredLogs now w).store).isSome = true ∧
    indexOk (worldStore (processStoredLogs now w)) = true ∧
    (∀ k, k ≠ keysListKey →
      ((k ∈ idxKeys (worldStore (processStoredLogs now w))) ↔
       ((worldStore (processStoredLogs now w)) k).isSome = true)) := by
  have hks : getAllKeysE s = Except.ok keys0 := by
    unfold getAllKeysE
    rw [hkl]
  have hok : indexOk s = true := by
    unfold indexOk
    rw [hks]
  have hidxs : idxKeys s = keys0 := by
    unfold idxKeys
    rw [hkl]
  have hrun : processStoredLogs now w =
      keys0.foldl
        (tickStep now
          (now - (if w.processAgeThreshold = 0 then defaultProcessInterval
                  else w.processAgeThreshold))) w := by
    unfold processStoredLogs
    rw [hw]
    dsimp only
    rw [hks]
  obtain ⟨s2, hs2, hok2, hP1, hP2, hP3⟩ :=
    tick_fold_spec now
      (now - (if w.processAgeThreshold = 0 then defaultProcessInterval
              else w.processAgeThreshold))
      keys0 w s hw hok hnd
      (fun k h heq => hres (heq ▸ h))
      (fun k h => by rw [hidxs]; exact h)
  have hst : (processStoredLogs now w).store = some s2 := by
    rw [hrun]
    exact hs2
  have hws : worldStore (processStoredLogs now w) = s2 := by
    unfold worldStore
    rw [hst]
  refine ⟨hks, by rw [hst]; rfl, by rw [hws]; exact hok2, ?_⟩
  intro k hk
  rw [hws]
  by_cases hk0 : k ∈ keys0
  · exact hP1 k hk0
  · have hfr := hP2 k hk hk0
    constructor
    · intro hmem2
      have : k ∈ keys0 := by
        rw [← hidxs]
        exact hfr.2.mp hmem2
      exact absurd this hk0
    · intro hsome
      rw [hfr.1] at hsome
      exact absurd (horph k hk hsome) hk0

/-- Witness for ghost_keys_reconciled at the seeded ghost scenario, read at
the ghost key B. -/
theorem ghost_keys_reconciled_witness :
    ("B" ∈ idxKeys (worldStore (processStoredLogs 0 ghostWorld))) ↔
      ((worldStore (processStoredLogs 0 ghostWorld)) "B").isSome = true :=
  (ghost_keys_reconciled 0 ghostWorld ghostStore ["A", "B"] rfl (by decide) (by decide)
    (by decide)
    (by
      intro k hk hsome
      by_cases hA : k = "A"
      · subst hA
        exact List.mem_cons_self "A" ["B"]
      · exfalso
        have hnone : ghostStore k = none := by
          simp [ghostStore, storeSet, emptyStore, hA, hk]
        rw [hnone] at hsome
        simp at hsome)).2.2.2 "B" (by decide)

end AuditLog
